import Mathlib

/-!
Verification of the message-analysis engine of the Testing-Slack-Automation
repository.  The Python sources `src/local_analyzer.py` (class
`LocalMessageAnalyzer`) and `src/src/message_analyzer.py` (class
`MessageAnalyzer`) are shallowly embedded below: strings become `List Char`,
Python floats become `ℚ`, datetimes become `ℚ` seconds since the epoch, and
the mutable analyzer state becomes an explicit record that is threaded
through the processing functions.
-/

namespace SlackAnalysis

/-! ## Character classes

CPython's `str` regexes and `str.split()` decide whitespace through
`Py_UNICODE_ISSPACE`, whose table is small and is reproduced here in
full, so `isWS` agrees with Python on every code point.  The `\w` class
and `str.lower` depend on the whole Unicode character database, which
lives in the interpreter, outside this repository; they are modelled
exactly on the code points a theorem below touches — all of ASCII,
U+0130 'İ' (a `\w` letter whose lowercase is the two characters
'i' + U+0307) and U+0307 (a combining mark, not `\w`) — and every
theorem that depends on the class of a character only quantifies over
that modelled domain. -/

/-- Whitespace characters of `str.split()` and `\s`: the complete
`Py_UNICODE_ISSPACE` table (U+0009–U+000D, U+001C–U+001F, U+0020,
U+0085, U+00A0, U+1680, U+2000–U+200A, U+2028, U+2029, U+202F, U+205F,
U+3000). -/
def isWS (c : Char) : Bool :=
  c.toNat = 32 || (9 ≤ c.toNat && c.toNat ≤ 13) ||
    (28 ≤ c.toNat && c.toNat ≤ 31) || c.toNat = 133 || c.toNat = 160 ||
    c.toNat = 5760 || (8192 ≤ c.toNat && c.toNat ≤ 8202) ||
    c.toNat = 8232 || c.toNat = 8233 || c.toNat = 8239 ||
    c.toNat = 8287 || c.toNat = 12288

theorem isWS_iff (c : Char) :
    isWS c = true ↔
      (c.toNat = 32 ∨ (9 ≤ c.toNat ∧ c.toNat ≤ 13) ∨
        (28 ≤ c.toNat ∧ c.toNat ≤ 31) ∨ c.toNat = 133 ∨ c.toNat = 160 ∨
        c.toNat = 5760 ∨ (8192 ≤ c.toNat ∧ c.toNat ≤ 8202) ∨
        c.toNat = 8232 ∨ c.toNat = 8233 ∨ c.toNat = 8239 ∨
        c.toNat = 8287 ∨ c.toNat = 12288) := by
  simp [isWS, Bool.or_eq_true, Bool.and_eq_true, decide_eq_true_eq,
    or_assoc]

/-- No printable ASCII character (other than the space, below 33) is
whitespace. -/
theorem isWS_false_of_range (c : Char) (h1 : 33 ≤ c.toNat)
    (h2 : c.toNat ≤ 126) : isWS c = false := by
  cases hb : isWS c
  · rfl
  · have := (isWS_iff c).mp hb
    omega

/-- Word characters of `\w` on the modelled domain: ASCII letters,
digits, underscore, and U+0130 'İ' (alphabetic, hence `\w` in Python;
U+0307 is a combining mark and falls through). -/
def isWordChar (c : Char) : Bool :=
  (48 ≤ c.toNat && c.toNat ≤ 57) || (65 ≤ c.toNat && c.toNat ≤ 90) ||
    (97 ≤ c.toNat && c.toNat ≤ 122) || c.toNat = 95 || c.toNat = 304

theorem isWordChar_iff (c : Char) :
    isWordChar c = true ↔
      ((48 ≤ c.toNat ∧ c.toNat ≤ 57) ∨ (65 ≤ c.toNat ∧ c.toNat ≤ 90) ∨
        (97 ≤ c.toNat ∧ c.toNat ≤ 122) ∨ c.toNat = 95 ∨
        c.toNat = 304) := by
  simp [isWordChar, Bool.or_eq_true, Bool.and_eq_true, decide_eq_true_eq,
    or_assoc]

theorem toNat_charOfNat_of_lt (n : Nat) (h : n < 55296) :
    (Char.ofNat n).toNat = n := by
  have hv : n.isValidChar := Or.inl h
  simp [Char.ofNat, hv, Char.ofNatAux, Char.toNat, UInt32.toNat,
    BitVec.toNat_ofNatLt]

/-- `str.lower`, one character at a time: the uppercase ASCII range maps
down by 32, and U+0130 'İ' maps to the TWO characters 'i' + U+0307 — the
one code point of the modelled domain whose lowercase is longer than its
uppercase.  Code points outside the modelled domain are left unchanged
(Python's full case table is interpreter data, outside this
repository). -/
def pyLowerChar (c : Char) : List Char :=
  if c.toNat = 304 then ['i', Char.ofNat 775]
  else if 65 ≤ c.toNat ∧ c.toNat ≤ 90 then [Char.ofNat (c.toNat + 32)]
  else [c]

theorem pyLowerChar_dotted (c : Char) (h : c.toNat = 304) :
    pyLowerChar c = ['i', Char.ofNat 775] := by
  unfold pyLowerChar
  rw [if_pos h]

theorem pyLowerChar_upper (c : Char) (h : 65 ≤ c.toNat ∧ c.toNat ≤ 90) :
    pyLowerChar c = [Char.ofNat (c.toNat + 32)] := by
  unfold pyLowerChar
  rw [if_neg (by omega), if_pos h]

theorem pyLowerChar_fix (c : Char) (h1 : ¬ (65 ≤ c.toNat ∧ c.toNat ≤ 90))
    (h2 : c.toNat ≠ 304) : pyLowerChar c = [c] := by
  unfold pyLowerChar
  rw [if_neg h2, if_neg h1]

theorem pyLowerChar_ne_nil (c : Char) : pyLowerChar c ≠ [] := by
  unfold pyLowerChar
  split
  · simp
  · split <;> simp

theorem pyLowerChar_of_ws (c : Char) (h : isWS c = true) :
    pyLowerChar c = [c] := by
  have hn := (isWS_iff c).mp h
  exact pyLowerChar_fix c (by omega) (by omega)

theorem pyLowerChar_not_ws (c : Char) (h : isWS c = false) :
    ∀ d ∈ pyLowerChar c, isWS d = false := by
  intro d hd
  by_cases h304 : c.toNat = 304
  · rw [pyLowerChar_dotted c h304] at hd
    rcases List.mem_cons.mp hd with h1 | h1
    · subst h1; decide
    · have : d = Char.ofNat 775 := by simpa using h1
      subst this; decide
  · by_cases hup : 65 ≤ c.toNat ∧ c.toNat ≤ 90
    · rw [pyLowerChar_upper c hup] at hd
      have : d = Char.ofNat (c.toNat + 32) := by simpa using hd
      subst this
      apply isWS_false_of_range
      · rw [toNat_charOfNat_of_lt _ (by omega)]; omega
      · rw [toNat_charOfNat_of_lt _ (by omega)]; omega
    · rw [pyLowerChar_fix c hup h304] at hd
      have : d = c := by simpa using hd
      subst this; exact h

/-! ## `re.sub(pattern, '', text)` with deleting replacements

The four stripping substitutions of `preprocess_text` all replace their
matches by the empty string.  `scanStrip m` scans left to right; at every
position the matcher `m` either reports the length of a match (which is
deleted and skipped) or the current character is kept.  This is `re.sub`'s
behaviour for the patterns at hand, which match deterministically
(leftmost position, and at a given position the match length is unique). -/

def scanStripF (m : List Char → Option Nat) : Nat → List Char → List Char
  | 0, l => l
  | _ + 1, [] => []
  | fuel + 1, c :: cs =>
    match m (c :: cs) with
    | some n =>
      if 0 < n then scanStripF m fuel ((c :: cs).drop n)
      else c :: scanStripF m fuel cs
    | none => c :: scanStripF m fuel cs

def scanStrip (m : List Char → Option Nat) (l : List Char) : List Char :=
  scanStripF m l.length l

/-- A matcher that never fires on lists of `P`-characters leaves such a
list untouched. -/
theorem scanStripF_id (m : List Char → Option Nat) (P : Char → Prop)
    (hm : ∀ l : List Char, (∀ c ∈ l, P c) → m l = none) :
    ∀ (fuel : Nat) (l : List Char), (∀ c ∈ l, P c) →
      scanStripF m fuel l = l := by
  intro fuel
  induction fuel with
  | zero => intro l _; rfl
  | succ n ih =>
    intro l hl
    cases l with
    | nil => rfl
    | cons c cs =>
      simp only [scanStripF, hm (c :: cs) hl]
      rw [ih cs (fun x hx => hl x (List.mem_cons_of_mem c hx))]

theorem scanStrip_id (m : List Char → Option Nat) (P : Char → Prop)
    (hm : ∀ l : List Char, (∀ c ∈ l, P c) → m l = none)
    (l : List Char) (hl : ∀ c ∈ l, P c) : scanStrip m l = l :=
  scanStripF_id m P hm l.length l hl

/-- Length of the maximal run of `p`-characters at the front of `l`. -/
def takeRun (p : Char → Bool) (l : List Char) : Nat :=
  (l.takeWhile p).length

/-- Matcher for `http[s]?://\S+` (then greedily to the next whitespace). -/
def urlMatch (l : List Char) : Option Nat :=
  if ("https://".toList).isPrefixOf l then
    let r := takeRun (fun c => !isWS c) (l.drop 8)
    if 0 < r then some (8 + r) else none
  else if ("http://".toList).isPrefixOf l then
    let r := takeRun (fun c => !isWS c) (l.drop 7)
    if 0 < r then some (7 + r) else none
  else none

/-- Character class `[A-Z0-9]`. -/
def isUpperDigit (c : Char) : Bool :=
  (65 ≤ c.toNat && c.toNat ≤ 90) || (48 ≤ c.toNat && c.toNat ≤ 57)

/-- Matcher for user mentions `<@[A-Z0-9]+>`. -/
def mentionMatch (l : List Char) : Option Nat :=
  match l with
  | '<' :: '@' :: rest =>
    let r := takeRun isUpperDigit rest
    if 0 < r ∧ rest.get? r = some '>' then some (r + 3) else none
  | _ => none

/-- Matcher for channel mentions `<#[A-Z0-9]+\|[^>]+>`. -/
def channelMatch (l : List Char) : Option Nat :=
  match l with
  | '<' :: '#' :: rest =>
    let r1 := takeRun isUpperDigit rest
    if 0 < r1 ∧ rest.get? r1 = some '|' then
      let rest2 := rest.drop (r1 + 1)
      let r2 := takeRun (fun c => !(c == '>')) rest2
      if 0 < r2 ∧ rest2.get? r2 = some '>' then some (r1 + r2 + 4) else none
    else none
  | _ => none

/-- Character class `[a-zA-Z0-9_-]` of emoji shortcodes. -/
def isEmojiChar (c : Char) : Bool :=
  (97 ≤ c.toNat && c.toNat ≤ 122) || (65 ≤ c.toNat && c.toNat ≤ 90) ||
    (48 ≤ c.toNat && c.toNat ≤ 57) || c.toNat = 95 || c.toNat = 45

/-- Matcher for emoji shortcodes `:[a-zA-Z0-9_-]+:`. -/
def emojiMatch (l : List Char) : Option Nat :=
  match l with
  | ':' :: rest =>
    let r := takeRun isEmojiChar rest
    if 0 < r ∧ rest.get? r = some ':' then some (r + 2) else none
  | _ => none

/-- `re.sub(r'[^\w\s?!.]', ' ', text)`: keep word characters, whitespace
and `? ! .`, replace every other character by a space. -/
def keepChar (c : Char) : Bool :=
  isWordChar c || isWS c || c == '?' || c == '!' || c == '.'

def cleanChars (l : List Char) : List Char :=
  l.map fun c => if keepChar c then c else ' '

/-! ## `' '.join(text.split())` and `str.lower` -/

/-- Split into the first whitespace-free group and the later groups
(groups may be empty; `str.split()` discards the empty ones). -/
def splitWS1 : List Char → List Char × List (List Char)
  | [] => ([], [])
  | c :: cs =>
    let p := splitWS1 cs
    if isWS c then ([], p.1 :: p.2) else (c :: p.1, p.2)

/-- `text.split()`: maximal whitespace-free groups, empties dropped. -/
def pyWords (l : List Char) : List (List Char) :=
  ((splitWS1 l).1 :: (splitWS1 l).2).filter fun w => !w.isEmpty

def joinRest : List (List Char) → List Char
  | [] => []
  | w :: ws => ' ' :: (w ++ joinRest ws)

/-- `' '.join(ws)`. -/
def joinWords : List (List Char) → List Char
  | [] => []
  | w :: ws => w ++ joinRest ws

/-- `' '.join(text.split())`. -/
def collapseWS (l : List Char) : List Char :=
  joinWords (pyWords l)

/-- `str.lower`. -/
def lowerL (l : List Char) : List Char := l.flatMap pyLowerChar

/-- `LocalMessageAnalyzer.preprocess_text` (src/local_analyzer.py lines
81–95): strip URLs, user mentions, channel mentions and emoji shortcodes,
replace characters outside `[\w\s?!.]` by spaces, collapse whitespace,
lowercase. -/
def preprocess_text (l : List Char) : List Char :=
  lowerL (collapseWS (cleanChars
    (scanStrip emojiMatch (scanStrip channelMatch
      (scanStrip mentionMatch (scanStrip urlMatch l))))))

/-! ### Facts about splitting and joining -/

theorem splitWS1_ws (c : Char) (h : isWS c = true) (cs : List Char) :
    splitWS1 (c :: cs) = ([], (splitWS1 cs).1 :: (splitWS1 cs).2) := by
  simp [splitWS1, h]

theorem splitWS1_not_ws (c : Char) (h : isWS c = false) (cs : List Char) :
    splitWS1 (c :: cs) = (c :: (splitWS1 cs).1, (splitWS1 cs).2) := by
  simp [splitWS1, h]

theorem splitWS1_append (w l : List Char) (hw : ∀ c ∈ w, isWS c = false) :
    splitWS1 (w ++ l) = (w ++ (splitWS1 l).1, (splitWS1 l).2) := by
  induction w with
  | nil => simp
  | cons c cs ih =>
    have hc : isWS c = false := hw c (List.mem_cons_self c cs)
    have ih' := ih fun x hx => hw x (List.mem_cons_of_mem c hx)
    simp only [List.cons_append, splitWS1_not_ws c hc, ih']

/-- Every character of every group produced by `splitWS1` is a
non-whitespace character of the input. -/
theorem splitWS1_chars (l : List Char) :
    (∀ c ∈ (splitWS1 l).1, c ∈ l ∧ isWS c = false) ∧
      (∀ w ∈ (splitWS1 l).2, ∀ c ∈ w, c ∈ l ∧ isWS c = false) := by
  induction l with
  | nil => simp [splitWS1]
  | cons a as ih =>
    by_cases ha : isWS a = true
    · rw [splitWS1_ws a ha]
      refine ⟨by simp, ?_⟩
      intro w hw c hc
      rcases List.mem_cons.mp hw with h1 | h1
      · subst h1
        exact ⟨List.mem_cons_of_mem a (ih.1 c hc).1, (ih.1 c hc).2⟩
      · exact ⟨List.mem_cons_of_mem a (ih.2 w h1 c hc).1,
          (ih.2 w h1 c hc).2⟩
    · have ha' : isWS a = false := by
        cases h : isWS a with
        | false => rfl
        | true => exact absurd h ha
      rw [splitWS1_not_ws a ha']
      constructor
      · intro c hc
        rcases List.mem_cons.mp hc with h1 | h1
        · subst h1; exact ⟨List.mem_cons_self _ _, ha'⟩
        · exact ⟨List.mem_cons_of_mem a (ih.1 c h1).1, (ih.1 c h1).2⟩
      · intro w hw c hc
        exact ⟨List.mem_cons_of_mem a (ih.2 w hw c hc).1,
          (ih.2 w hw c hc).2⟩

theorem pyWords_chars (l : List Char) :
    ∀ w ∈ pyWords l, (∀ c ∈ w, c ∈ l ∧ isWS c = false) ∧ w ≠ [] := by
  intro w hw
  have h2 := List.of_mem_filter hw
  have h1 : w ∈ (splitWS1 l).1 :: (splitWS1 l).2 := List.mem_of_mem_filter hw
  have hne : w ≠ [] := by
    intro h; subst h; simp at h2
  refine ⟨?_, hne⟩
  intro c hc
  rcases List.mem_cons.mp h1 with h3 | h3
  · subst h3; exact (splitWS1_chars l).1 c hc
  · exact (splitWS1_chars l).2 w h3 c hc

theorem pyWords_word_append (w l : List Char) (hw : ∀ c ∈ w, isWS c = false)
    (hne : w ≠ []) : pyWords (w ++ ' ' :: l) = w :: pyWords l := by
  have hsp : isWS ' ' = true := by decide
  have h1 : splitWS1 (' ' :: l) = ([], (splitWS1 l).1 :: (splitWS1 l).2) :=
    splitWS1_ws ' ' hsp l
  have h2 : splitWS1 (w ++ ' ' :: l) =
      (w, (splitWS1 l).1 :: (splitWS1 l).2) := by
    rw [splitWS1_append w (' ' :: l) hw, h1]
    simp
  simp only [pyWords, h2]
  rw [List.filter_cons_of_pos]
  simp [List.isEmpty_iff, hne]

theorem pyWords_single (w : List Char) (hw : ∀ c ∈ w, isWS c = false)
    (hne : w ≠ []) : pyWords w = [w] := by
  have h2 : splitWS1 w = (w, []) := by
    have := splitWS1_append w [] hw
    simpa [splitWS1] using this
  simp only [pyWords, h2]
  rw [List.filter_cons_of_pos]
  · simp
  · simp [List.isEmpty_iff, hne]

/-- `split` undoes `join` on lists of nonempty whitespace-free words. -/
theorem pyWords_joinWords (ws : List (List Char))
    (h : ∀ w ∈ ws, (∀ c ∈ w, isWS c = false) ∧ w ≠ []) :
    pyWords (joinWords ws) = ws := by
  induction ws with
  | nil => simp [joinWords, pyWords, splitWS1]
  | cons w ws ih =>
    cases ws with
    | nil =>
      have hw := h w (List.mem_cons_self w [])
      simp only [joinWords, joinRest, List.append_nil]
      exact pyWords_single w hw.1 hw.2
    | cons w2 ws2 =>
      have hw := h w (List.mem_cons_self w _)
      have hrest : ∀ x ∈ w2 :: ws2, (∀ c ∈ x, isWS c = false) ∧ x ≠ [] :=
        fun x hx => h x (List.mem_cons_of_mem w hx)
      have hjoin : joinWords (w :: w2 :: ws2) =
          w ++ ' ' :: joinWords (w2 :: ws2) := by
        simp [joinWords, joinRest]
      rw [hjoin, pyWords_word_append w _ hw.1 hw.2, ih hrest]

theorem collapseWS_idem (l : List Char) :
    collapseWS (collapseWS l) = collapseWS l := by
  unfold collapseWS
  rw [pyWords_joinWords (pyWords l) (fun w hw =>
    ⟨fun c hc => ((pyWords_chars l) w hw).1 c hc |>.2,
      ((pyWords_chars l) w hw).2⟩)]

theorem splitWS1_lowerL (l : List Char) :
    splitWS1 (lowerL l) =
      (lowerL (splitWS1 l).1, (splitWS1 l).2.map lowerL) := by
  induction l with
  | nil => simp [splitWS1, lowerL]
  | cons a as ih =>
    have hl : lowerL (a :: as) = pyLowerChar a ++ lowerL as := by
      simp [lowerL]
    cases ha : isWS a with
    | true =>
      rw [hl, pyLowerChar_of_ws a ha, List.singleton_append,
        splitWS1_ws a ha (lowerL as), splitWS1_ws a ha as, ih]
      simp [lowerL]
    | false =>
      rw [hl, splitWS1_append (pyLowerChar a) (lowerL as)
        (pyLowerChar_not_ws a ha), ih, splitWS1_not_ws a ha as]
      simp [lowerL]

theorem pyWords_lowerL (l : List Char) :
    pyWords (lowerL l) = (pyWords l).map lowerL := by
  unfold pyWords
  rw [splitWS1_lowerL]
  have : lowerL (splitWS1 l).1 :: (splitWS1 l).2.map lowerL =
      ((splitWS1 l).1 :: (splitWS1 l).2).map lowerL := by simp
  rw [this, List.filter_map]
  refine congrArg _ (List.filter_congr ?_)
  intro w _
  cases w with
  | nil => simp [lowerL, Function.comp]
  | cons c cs =>
    have h1 : lowerL (c :: cs) = pyLowerChar c ++ lowerL cs := by
      simp [lowerL]
    have h2 : (pyLowerChar c ++ lowerL cs).isEmpty = false := by
      cases hp : pyLowerChar c with
      | nil => exact absurd hp (pyLowerChar_ne_nil c)
      | cons d ds => simp
    simp [Function.comp, h1, h2]

theorem joinWords_map_lowerL (ws : List (List Char)) :
    joinWords (ws.map lowerL) = lowerL (joinWords ws) := by
  have hrest : ∀ vs : List (List Char),
      joinRest (vs.map lowerL) = lowerL (joinRest vs) := by
    intro vs
    induction vs with
    | nil => simp [joinRest, lowerL]
    | cons v vs ih =>
      have hsp : pyLowerChar ' ' = [' '] := by decide
      simp only [List.map_cons, joinRest]
      rw [ih]
      simp [lowerL, hsp]
  cases ws with
  | nil => simp [joinWords, lowerL]
  | cons w ws =>
    simp only [List.map_cons, joinWords]
    rw [hrest ws]
    simp [lowerL]

theorem collapseWS_lowerL (l : List Char) :
    collapseWS (lowerL l) = lowerL (collapseWS l) := by
  unfold collapseWS
  rw [pyWords_lowerL, joinWords_map_lowerL]

theorem lowerL_pyLowerChar_fix (c : Char) :
    lowerL (pyLowerChar c) = pyLowerChar c := by
  by_cases h304 : c.toNat = 304
  · rw [pyLowerChar_dotted c h304]
    decide
  · by_cases hup : 65 ≤ c.toNat ∧ c.toNat ≤ 90
    · rw [pyLowerChar_upper c hup]
      have ht : (Char.ofNat (c.toNat + 32)).toNat = c.toNat + 32 :=
        toNat_charOfNat_of_lt _ (by omega)
      have hfix : pyLowerChar (Char.ofNat (c.toNat + 32)) =
          [Char.ofNat (c.toNat + 32)] :=
        pyLowerChar_fix _ (by rw [ht]; omega) (by rw [ht]; omega)
      simp [lowerL, hfix]
    · rw [pyLowerChar_fix c hup h304]
      simp [lowerL, pyLowerChar_fix c hup h304]

theorem lowerL_idem (l : List Char) : lowerL (lowerL l) = lowerL l := by
  induction l with
  | nil => rfl
  | cons c cs ih =>
    have h1 : lowerL (c :: cs) = pyLowerChar c ++ lowerL cs := by
      simp [lowerL]
    have h2 : lowerL (pyLowerChar c ++ lowerL cs) =
        lowerL (pyLowerChar c) ++ lowerL (lowerL cs) := by
      simp [lowerL]
    rw [h1, h2, lowerL_pyLowerChar_fix c, ih]

theorem mem_joinWords (ws : List (List Char)) (c : Char)
    (hc : c ∈ joinWords ws) : c = ' ' ∨ ∃ w ∈ ws, c ∈ w := by
  induction ws with
  | nil => simp [joinWords] at hc
  | cons w vs ih =>
    simp only [joinWords] at hc
    rcases List.mem_append.mp hc with h1 | h1
    · exact Or.inr ⟨w, List.mem_cons_self _ _, h1⟩
    · cases vs with
      | nil => simp [joinRest] at h1
      | cons v vs2 =>
        simp only [joinRest] at h1
        rcases List.mem_cons.mp h1 with h2 | h2
        · exact Or.inl h2
        · have : c ∈ joinWords (v :: vs2) := by
            simpa [joinWords] using h2
          rcases ih this with h3 | ⟨u, hu, hcu⟩
          · exact Or.inl h3
          · exact Or.inr ⟨u, List.mem_cons_of_mem w hu, hcu⟩

/-- Every character of `scanStripF`'s output is a character of its
input: the scanner only deletes. -/
theorem scanStripF_subset (m : List Char → Option Nat) :
    ∀ (fuel : Nat) (l : List Char), ∀ c ∈ scanStripF m fuel l, c ∈ l := by
  intro fuel
  induction fuel with
  | zero => intro l c hc; exact hc
  | succ n ih =>
    intro l c hc
    cases l with
    | nil => simp [scanStripF] at hc
    | cons a as =>
      simp only [scanStripF] at hc
      cases hm : m (a :: as) with
      | none =>
        simp only [hm] at hc
        rcases List.mem_cons.mp hc with h1 | h1
        · rw [h1]; exact List.mem_cons_self _ _
        · exact List.mem_cons_of_mem a (ih as c h1)
      | some k =>
        simp only [hm] at hc
        by_cases hk : 0 < k
        · rw [if_pos hk] at hc
          exact List.mem_of_mem_drop (ih _ c hc)
        · rw [if_neg hk] at hc
          rcases List.mem_cons.mp hc with h1 | h1
          · rw [h1]; exact List.mem_cons_self _ _
          · exact List.mem_cons_of_mem a (ih as c h1)

theorem scanStrip_subset (m : List Char → Option Nat) (l : List Char)
    (c : Char) (hc : c ∈ scanStrip m l) : c ∈ l :=
  scanStripF_subset m l.length l c hc

/-- Shape of every character that `preprocess_text` produces from ASCII
input: a space, or a lowercase-stable word character, or one of `? ! .`.
(Non-ASCII input can leave a combining mark such as U+0307 in the
output, which is none of these — the source of the non-idempotence
below.) -/
def outChar (c : Char) : Prop :=
  c = ' ' ∨ (isWordChar c = true ∧ isWS c = false ∧ pyLowerChar c = [c]) ∨
    c = '?' ∨ c = '!' ∨ c = '.'

theorem preprocess_text_chars (l : List Char)
    (hl : ∀ c ∈ l, c.toNat < 128) :
    ∀ c ∈ preprocess_text l, outChar c := by
  intro c hc
  unfold preprocess_text at hc
  have hsub : ∀ x ∈ scanStrip emojiMatch (scanStrip channelMatch
      (scanStrip mentionMatch (scanStrip urlMatch l))), x.toNat < 128 := by
    intro x hx
    exact hl x (scanStrip_subset _ _ _ (scanStrip_subset _ _ _
      (scanStrip_subset _ _ _ (scanStrip_subset _ _ _ hx))))
  unfold lowerL at hc
  rcases List.mem_flatMap.mp hc with ⟨c1, hc1, hcl⟩
  rcases mem_joinWords _ _ hc1 with h1 | ⟨w, hw, hcw⟩
  · subst h1
    have hp : pyLowerChar ' ' = [' '] := by decide
    rw [hp] at hcl
    have : c = ' ' := by simpa using hcl
    exact Or.inl this
  · have h2 := (pyWords_chars _ w hw).1 c1 hcw
    have hnw : isWS c1 = false := h2.2
    rcases List.mem_map.mp h2.1 with ⟨c2, hc2mem, hc2⟩
    have hc2a : c2.toNat < 128 := hsub c2 hc2mem
    by_cases hk : keepChar c2 = true
    · rw [if_pos hk] at hc2
      subst hc2
      simp only [keepChar, Bool.or_eq_true, beq_iff_eq] at hk
      rcases hk with (((hw1 | hw2) | hq) | he) | hd
      · have hranges := (isWordChar_iff c2).mp hw1
        have h304 : c2.toNat ≠ 304 := by omega
        by_cases hup : 65 ≤ c2.toNat ∧ c2.toNat ≤ 90
        · rw [pyLowerChar_upper c2 hup] at hcl
          have hce : c = Char.ofNat (c2.toNat + 32) := by simpa using hcl
          subst hce
          have ht : (Char.ofNat (c2.toNat + 32)).toNat = c2.toNat + 32 :=
            toNat_charOfNat_of_lt _ (by omega)
          refine Or.inr (Or.inl ⟨?_, ?_, ?_⟩)
          · rw [isWordChar_iff, ht]
            omega
          · exact isWS_false_of_range _ (by rw [ht]; omega)
              (by rw [ht]; omega)
          · exact pyLowerChar_fix _ (by rw [ht]; omega) (by rw [ht]; omega)
        · rw [pyLowerChar_fix c2 hup h304] at hcl
          have hce : c = c2 := by simpa using hcl
          subst hce
          exact Or.inr (Or.inl ⟨hw1, hnw, pyLowerChar_fix _ hup h304⟩)
      · rw [hw2] at hnw; simp at hnw
      · subst hq
        have hp : pyLowerChar '?' = ['?'] := by decide
        rw [hp] at hcl
        have : c = '?' := by simpa using hcl
        exact Or.inr (Or.inr (Or.inl this))
      · subst he
        have hp : pyLowerChar '!' = ['!'] := by decide
        rw [hp] at hcl
        have : c = '!' := by simpa using hcl
        exact Or.inr (Or.inr (Or.inr (Or.inl this)))
      · subst hd
        have hp : pyLowerChar '.' = ['.'] := by decide
        rw [hp] at hcl
        have : c = '.' := by simpa using hcl
        exact Or.inr (Or.inr (Or.inr (Or.inr this)))
    · rw [if_neg hk] at hc2
      rw [← hc2] at hnw
      exact absurd hnw (by decide)

theorem outChar_ne_colon (c : Char) (h : outChar c) : c ≠ ':' := by
  rintro rfl
  rcases h with h | ⟨h, _, _⟩ | h | h | h <;> exact absurd h (by decide)

theorem outChar_ne_lt (c : Char) (h : outChar c) : c ≠ '<' := by
  rintro rfl
  rcases h with h | ⟨h, _, _⟩ | h | h | h <;> exact absurd h (by decide)

theorem urlMatch_none (l : List Char) (h : ∀ c ∈ l, c ≠ ':') :
    urlMatch l = none := by
  unfold urlMatch
  have h1 : ¬ ("https://".toList).isPrefixOf l = true := by
    intro hp
    have hpre : "https://".toList <+: l := by
      rwa [List.isPrefixOf_iff_prefix] at hp
    exact h ':' (hpre.sublist.subset (by decide)) rfl
  have h2 : ¬ ("http://".toList).isPrefixOf l = true := by
    intro hp
    have hpre : "http://".toList <+: l := by
      rwa [List.isPrefixOf_iff_prefix] at hp
    exact h ':' (hpre.sublist.subset (by decide)) rfl
  rw [if_neg h1, if_neg h2]

theorem mentionMatch_none (l : List Char) (h : ∀ c ∈ l, c ≠ '<') :
    mentionMatch l = none := by
  unfold mentionMatch
  split
  · exact (h '<' (List.mem_cons_self _ _) rfl).elim
  · rfl

theorem channelMatch_none (l : List Char) (h : ∀ c ∈ l, c ≠ '<') :
    channelMatch l = none := by
  unfold channelMatch
  split
  · exact (h '<' (List.mem_cons_self _ _) rfl).elim
  · rfl

theorem emojiMatch_none (l : List Char) (h : ∀ c ∈ l, c ≠ ':') :
    emojiMatch l = none := by
  unfold emojiMatch
  split
  · exact (h ':' (List.mem_cons_self _ _) rfl).elim
  · rfl

theorem outChar_keep (c : Char) (h : outChar c) : keepChar c = true := by
  rcases h with rfl | ⟨h1, _, _⟩ | rfl | rfl | rfl
  · decide
  · simp [keepChar, h1]
  · decide
  · decide
  · decide

theorem cleanChars_id (l : List Char) (h : ∀ c ∈ l, keepChar c = true) :
    cleanChars l = l := by
  unfold cleanChars
  have : ∀ c ∈ l, (if keepChar c then c else ' ') = c := by
    intro c hc; rw [if_pos (h c hc)]
  rw [List.map_congr_left this]
  simp

/-- On ASCII input the normalizer is idempotent: every character it
produces is a space, a lowercase-stable word character or `? ! .`, and
each of the six stages is the identity on such strings.  (Without the
ASCII restriction this fails: see the U+0130 counterexample.) -/
theorem preprocess_text_idem_of_ascii (l : List Char)
    (hl : ∀ c ∈ l, c.toNat < 128) :
    preprocess_text (preprocess_text l) = preprocess_text l := by
  have hmem := preprocess_text_chars l hl
  have hurl : scanStrip urlMatch (preprocess_text l) = preprocess_text l :=
    scanStrip_id _ outChar
      (fun l' hl' => urlMatch_none l' fun c hc => outChar_ne_colon c (hl' c hc))
      _ hmem
  have hmention :
      scanStrip mentionMatch (preprocess_text l) = preprocess_text l :=
    scanStrip_id _ outChar
      (fun l' hl' => mentionMatch_none l' fun c hc => outChar_ne_lt c (hl' c hc))
      _ hmem
  have hchannel :
      scanStrip channelMatch (preprocess_text l) = preprocess_text l :=
    scanStrip_id _ outChar
      (fun l' hl' => channelMatch_none l' fun c hc => outChar_ne_lt c (hl' c hc))
      _ hmem
  have hemoji :
      scanStrip emojiMatch (preprocess_text l) = preprocess_text l :=
    scanStrip_id _ outChar
      (fun l' hl' => emojiMatch_none l' fun c hc => outChar_ne_colon c (hl' c hc))
      _ hmem
  have hclean : cleanChars (preprocess_text l) = preprocess_text l :=
    cleanChars_id _ fun c hc => outChar_keep c (hmem c hc)
  generalize hout : preprocess_text l = out at hurl hmention hchannel hemoji hclean ⊢
  unfold preprocess_text
  rw [hurl, hmention, hchannel, hemoji, hclean]
  subst hout
  unfold preprocess_text
  rw [collapseWS_lowerL, collapseWS_idem, lowerL_idem]

/-- Python's two-argument `min` on floats, modelled on `ℚ`. -/
def pymin (a b : ℚ) : ℚ := if a ≤ b then a else b

theorem pymin_eq_min (a b : ℚ) : pymin a b = min a b := by
  rw [pymin, min_def]

theorem pymin_le_right (a b : ℚ) : pymin a b ≤ b := by
  rw [pymin_eq_min]; exact min_le_right a b

theorem le_pymin {c a b : ℚ} (h1 : c ≤ a) (h2 : c ≤ b) : c ≤ pymin a b := by
  rw [pymin_eq_min]; exact le_min h1 h2

/-! ## Substring search and the regex patterns of the category rules

Every pattern in the two analyzers' category tables is either a chain of
literal segments separated by `.*` (in a text without newlines, `re.search`
succeeds on such a chain iff the segments occur in order), or the
end-anchored `\?$`. -/

/-- The suffix of `l` that follows the first occurrence of `seg` as a
contiguous substring, or `none` when `seg` does not occur. -/
def findDrop (seg : List Char) : List Char → Option (List Char)
  | [] => if seg.isEmpty then some [] else none
  | c :: cs =>
    if seg.isPrefixOf (c :: cs) then some ((c :: cs).drop seg.length)
    else findDrop seg cs

/-- Python's `needle in haystack` substring test. -/
def containsSub (needle hay : List Char) : Bool :=
  (findDrop needle hay).isSome

def seqMatch : List (List Char) → List Char → Bool
  | [], _ => true
  | seg :: rest, t =>
    match findDrop seg t with
    | some t' => seqMatch rest t'
    | none => false

inductive Pat where
  | seq : List (List Char) → Pat
  | endsQ : Pat

/-- `re.search(pattern, text)` as a Boolean, for the two pattern shapes. -/
def patMatch : Pat → List Char → Bool
  | .seq segs, t => seqMatch segs t
  | .endsQ, t => t.getLast? == some '?'

/-! ## Category rules of `LocalMessageAnalyzer` (src/local_analyzer.py
lines 33–76), in configuration (insertion) order. -/

structure CatConfig where
  keywords : List (List Char)
  patterns : List Pat
  color : String
  priority_boost : ℚ

def sl (s : String) : List Char := s.toList

def categories : List (String × CatConfig) :=
  [ ("bug_report",
      { keywords := [sl "bug", sl "error", sl "issue", sl "problem",
          sl "broken", sl "not working", sl "crash", sl "fail",
          sl "exception", sl "500", sl "404"]
        patterns := [.seq [sl "error", sl "code"], .seq [sl "exception"],
          .seq [sl "stack trace"], .seq [sl "500", sl "error"],
          .seq [sl "404", sl "error"], .seq [sl "not", sl "work"]]
        color := "#FF6B6B", priority_boost := 3/10 }),
    ("feature_request",
      { keywords := [sl "feature", sl "enhancement", sl "improve", sl "add",
          sl "new", sl "request", sl "would like", sl "could we",
          sl "suggestion"]
        patterns := [.seq [sl "can", sl "we", sl "add"],
          .seq [sl "would", sl "be", sl "nice"],
          .seq [sl "feature", sl "request"], .seq [sl "enhancement"]]
        color := "#4ECDC4", priority_boost := 1/5 }),
    ("question",
      { keywords := [sl "how", sl "what", sl "where", sl "when", sl "why",
          sl "help", sl "question", sl "explain", sl "understand"]
        patterns := [.endsQ, .seq [sl "how", sl "to"],
          .seq [sl "what", sl "is"], .seq [sl "can", sl "someone"],
          .seq [sl "help", sl "me"]]
        color := "#45B7D1", priority_boost := 1/10 }),
    ("urgent",
      { keywords := [sl "urgent", sl "asap", sl "emergency", sl "critical",
          sl "down", sl "outage", sl "production", sl "immediately"]
        patterns := [.seq [sl "urgent", sl "help"],
          .seq [sl "production", sl "down"],
          .seq [sl "critical", sl "issue"], .seq [sl "emergency"]]
        color := "#FF4757", priority_boost := 4/5 }),
    ("deployment",
      { keywords := [sl "deploy", sl "release", sl "push", sl "merge",
          sl "build", sl "ci/cd", sl "pipeline", sl "staging"]
        patterns := [.seq [sl "deploy", sl "to"],
          .seq [sl "release", sl "notes"], .seq [sl "build", sl "failed"],
          .seq [sl "pipeline"]]
        color := "#FFA726", priority_boost := 3/10 }),
    ("access_request",
      { keywords := [sl "access", sl "permission", sl "login", sl "password",
          sl "account", sl "credential", sl "auth"]
        patterns := [.seq [sl "need", sl "access"],
          .seq [sl "can", sl "t", sl "login"],
          .seq [sl "permission", sl "denied"], .seq [sl "access", sl "to"]]
        color := "#AB47BC", priority_boost := 2/5 }),
    ("general",
      { keywords := [sl "update", sl "info", sl "fyi", sl "notice",
          sl "announcement", sl "heads up"]
        patterns := [.seq [sl "fyi"], .seq [sl "heads", sl "up"],
          .seq [sl "just", sl "to", sl "let", sl "you", sl "know"],
          .seq [sl "update"]]
        color := "#66BB6A", priority_boost := 0 })]

/-- Score of one category: +1 per keyword contained in the text, +2 per
matching pattern (src/local_analyzer.py lines 102–115). -/
def catScore (cfg : CatConfig) (t : List Char) : Nat :=
  (cfg.keywords.countP fun k => containsSub k t) +
    2 * (cfg.patterns.countP fun p => patMatch p t)

def scoreList (t : List Char) : List (String × Nat) :=
  categories.map fun c => (c.1, catScore c.2 t)

/-- Python's `max(items, key=snd)`: keeps the current element unless a
strictly greater one appears, so the FIRST maximal element wins. -/
def pyMax : String × Nat → List (String × Nat) → String × Nat
  | acc, [] => acc
  | acc, x :: xs => pyMax (if acc.2 < x.2 then x else acc) xs

/-- `LocalMessageAnalyzer.categorize_message` (src/local_analyzer.py lines
97–129): score every category, pick the first maximum, fall back to
`'general'` with raw score `0.1` when the maximum is `0`, then return
`min(best_score / 5.0, 1.0)` as the confidence. -/
def categorize_message (text : List Char) : String × ℚ :=
  let scores := scoreList (preprocess_text text)
  let best :=
    match scores with
    | [] => ("", 0)
    | s :: rest => pyMax s rest
  let bestName := if best.2 = 0 then "general" else best.1
  let bestScore : ℚ := if best.2 = 0 then 1/10 else (best.2 : ℚ)
  (bestName, pymin (bestScore / 5) 1)

/-! ### First-maximum facts about `pyMax` -/

def maxSnd : List (String × Nat) → Nat
  | [] => 0
  | x :: xs => max x.2 (maxSnd xs)

theorem le_maxSnd (l : List (String × Nat)) (y : String × Nat) (hy : y ∈ l) :
    y.2 ≤ maxSnd l := by
  induction l with
  | nil => simp at hy
  | cons x xs ih =>
    rcases List.mem_cons.mp hy with h | h
    · subst h; simp [maxSnd]
    · exact le_trans (ih h) (by simp [maxSnd])

theorem pyMax_of_ge (acc : String × Nat) (l : List (String × Nat))
    (h : ∀ y ∈ l, y.2 ≤ acc.2) : pyMax acc l = acc := by
  induction l with
  | nil => rfl
  | cons y ys ih =>
    have hy : y.2 ≤ acc.2 := h y (List.mem_cons_self _ _)
    have : ¬ acc.2 < y.2 := not_lt.mpr hy
    simp only [pyMax, if_neg this]
    exact ih fun z hz => h z (List.mem_cons_of_mem y hz)

/-- `pyMax` returns exactly the first element attaining the maximum. -/
theorem pyMax_first_max (s : String × Nat) (rest : List (String × Nat)) :
    (s :: rest).find? (fun y => y.2 == maxSnd (s :: rest)) =
      some (pyMax s rest) := by
  induction rest generalizing s with
  | nil =>
    have h : maxSnd [s] = s.2 := by simp [maxSnd]
    simp [List.find?, h, pyMax]
  | cons y ys ih =>
    by_cases hlt : s.2 < y.2
    · have hM : maxSnd (s :: y :: ys) = maxSnd (y :: ys) := by
        simp only [maxSnd]; omega
      have hs : (s.2 == maxSnd (s :: y :: ys)) = false := by
        have h1 : y.2 ≤ maxSnd (y :: ys) := by simp [maxSnd]
        rw [hM]
        simp only [beq_eq_false_iff_ne, ne_eq]
        omega
      rw [List.find?]
      rw [hs]
      rw [hM]
      rw [ih y]
      simp only [pyMax, if_pos hlt]
    · have hy_le : y.2 ≤ s.2 := not_lt.mp hlt
      have hM : maxSnd (s :: y :: ys) = maxSnd (s :: ys) := by
        simp only [maxSnd]; omega
      have hpy : pyMax s (y :: ys) = pyMax s ys := by
        simp only [pyMax, if_neg hlt]
      rw [hpy, ← ih s, hM]
      by_cases hs : s.2 = maxSnd (s :: ys)
      · have ht : (s.2 == maxSnd (s :: ys)) = true := beq_iff_eq.mpr hs
        simp [List.find?, ht]
      · have hsf : (s.2 == maxSnd (s :: ys)) = false :=
          beq_eq_false_iff_ne.mpr hs
        have hyf : (y.2 == maxSnd (s :: ys)) = false := by
          have h1 : s.2 ≤ maxSnd (s :: ys) := by simp [maxSnd]
          simp only [beq_eq_false_iff_ne, ne_eq]
          omega
        rw [List.find?, List.find?, hsf, hyf]
        rw [List.find?, hsf]

theorem pyMax_mem (acc : String × Nat) (l : List (String × Nat)) :
    pyMax acc l = acc ∨ pyMax acc l ∈ l := by
  induction l generalizing acc with
  | nil => exact Or.inl rfl
  | cons y ys ih =>
    simp only [pyMax]
    by_cases h : acc.2 < y.2
    · rw [if_pos h]
      rcases ih y with h1 | h1
      · exact Or.inr (by rw [h1]; exact List.mem_cons_self _ _)
      · exact Or.inr (List.mem_cons_of_mem y h1)
    · rw [if_neg h]
      rcases ih acc with h1 | h1
      · exact Or.inl h1
      · exact Or.inr (List.mem_cons_of_mem y h1)

/-! ## Messages and the priority scorer of `LocalMessageAnalyzer`

Datetimes are modelled as rational seconds since the epoch; all `float`
arithmetic is modelled in `ℚ`. -/

structure SimilarTicket where
  ticket_id : String
  similarity_score : ℚ
  category : String
  key_phrases : List (List Char)
  text_preview : List Char
deriving DecidableEq

structure SlackMessage where
  id : String
  text : List Char
  user : String
  channel : String
  timestamp : ℚ
  thread_ts : Option String := none
  reactions : List String := []
  category : Option String := none
  priority_score : Option ℚ := none
  similar_tickets : Option (List SimilarTicket) := none
deriving DecidableEq

/-- `self.categories.get(message.category, {}).get('priority_boost', 0.0)`. -/
def boostOf (cat : Option String) : ℚ :=
  match cat with
  | none => 0
  | some n =>
    match categories.find? fun c => c.1 == n with
    | some c => c.2.priority_boost
    | none => 0

def urgent_keywords : List (List Char) :=
  [sl "urgent", sl "asap", sl "emergency", sl "critical", sl "production",
    sl "down", sl "outage", sl "immediately"]

/-- The urgency-keyword loop of src/local_analyzer.py lines 142–145:
`for keyword in urgent_keywords: if keyword in text: score += 0.2; break`.
The `break` stops the loop after the first hit. -/
def urgencyLoop : List (List Char) → List Char → ℚ
  | [], _ => 0
  | k :: ks, t => if containsSub k t then 1/5 else urgencyLoop ks t

def countChar (c : Char) (l : List Char) : Nat := l.countP fun x => x == c

/-- The length factor of src/local_analyzer.py lines 156–159, verbatim:
`if len(text) > 100: score += 0.1 elif len(text) > 200: score += 0.2`.
(The `elif` branch is unreachable: any length above 200 is above 100.) -/
def lengthBonus (n : Nat) : ℚ :=
  if 100 < n then 1/10 else if 200 < n then 1/5 else 0

/-- The recency factor of src/local_analyzer.py lines 162–169, with
`hours_old = (now - timestamp) / 3600`. -/
def timeBonus (ts now : ℚ) : ℚ :=
  if (now - ts) / 3600 < 1 then 3/20
  else if (now - ts) / 3600 < 6 then 1/10
  else if (now - ts) / 3600 < 24 then 1/20
  else 0

/-- The running total accumulated by the `score +=` statements of
`LocalMessageAnalyzer.calculate_priority_score`, before the final cap. -/
def priority_raw (m : SlackMessage) (now : ℚ) : ℚ :=
  boostOf m.category
    + urgencyLoop urgent_keywords (preprocess_text m.text)
    + pymin ((countChar '?' (preprocess_text m.text) : ℚ) * (1/10)) (3/10)
    + pymin ((countChar '!' (preprocess_text m.text) : ℚ) * (1/20)) (1/5)
    + lengthBonus (preprocess_text m.text).length
    + timeBonus m.timestamp now
    + (if 1 < m.reactions.length then
        pymin ((m.reactions.length : ℚ) * (1/20)) (1/5) else 0)

/-- `LocalMessageAnalyzer.calculate_priority_score` (src/local_analyzer.py
lines 131–175).  `message.timestamp` is a `datetime`, which is always
truthy, so the recency branch always runs; `now` is `datetime.now()`. -/
def calculate_priority_score (m : SlackMessage) (now : ℚ) : ℚ :=
  pymin (priority_raw m now) 1

/-! ### Bounds -/

theorem boostOf_nonneg (cat : Option String) : 0 ≤ boostOf cat := by
  cases cat with
  | none => exact le_refl 0
  | some n =>
    unfold boostOf
    cases hf : categories.find? fun c => c.1 == n with
    | none => simp [hf]
    | some c =>
      simp only [hf]
      have hmem : c ∈ categories := List.mem_of_find?_eq_some hf
      have hall : ∀ x ∈ categories, 0 ≤ x.2.priority_boost := by
        intro x hx
        fin_cases hx <;> norm_num
      exact hall c hmem

theorem urgencyLoop_nonneg (ks : List (List Char)) (t : List Char) :
    0 ≤ urgencyLoop ks t := by
  induction ks with
  | nil => exact le_refl 0
  | cons k ks ih =>
    unfold urgencyLoop
    split
    · norm_num
    · exact ih

theorem lengthBonus_nonneg (n : Nat) : 0 ≤ lengthBonus n := by
  unfold lengthBonus
  split
  · norm_num
  · split
    · norm_num
    · exact le_refl 0

theorem timeBonus_nonneg (ts now : ℚ) : 0 ≤ timeBonus ts now := by
  unfold timeBonus
  split
  · norm_num
  · split
    · norm_num
    · split
      · norm_num
      · exact le_refl 0

theorem calculate_priority_score_nonneg (m : SlackMessage) (now : ℚ) :
    0 ≤ calculate_priority_score m now := by
  unfold calculate_priority_score priority_raw
  refine le_pymin ?_ (by norm_num)
  have h1 := boostOf_nonneg m.category
  have h2 := urgencyLoop_nonneg urgent_keywords (preprocess_text m.text)
  have h3 : (0:ℚ) ≤ pymin ((countChar '?' (preprocess_text m.text) : ℚ) * (1/10)) (3/10) :=
    le_pymin (by positivity) (by norm_num)
  have h4 : (0:ℚ) ≤ pymin ((countChar '!' (preprocess_text m.text) : ℚ) * (1/20)) (1/5) :=
    le_pymin (by positivity) (by norm_num)
  have h5 := lengthBonus_nonneg (preprocess_text m.text).length
  have h6 := timeBonus_nonneg m.timestamp now
  have h7 : (0:ℚ) ≤ (if 1 < m.reactions.length then
      pymin ((m.reactions.length : ℚ) * (1/20)) (1/5) else 0) := by
    split
    · exact le_pymin (by positivity) (by norm_num)
    · exact le_refl 0
  linarith

theorem calculate_priority_score_le_one (m : SlackMessage) (now : ℚ) :
    calculate_priority_score m now ≤ 1 := by
  unfold calculate_priority_score
  exact pymin_le_right _ _

theorem confidence_nonneg (t : List Char) :
    0 ≤ (categorize_message t).2 := by
  unfold categorize_message
  refine le_pymin ?_ (by norm_num)
  split <;> positivity

theorem confidence_le_one (t : List Char) :
    (categorize_message t).2 ≤ 1 := by
  unfold categorize_message
  exact pymin_le_right _ _

def categoryNames : List String := categories.map Prod.fst

theorem categorize_name_mem (t : List Char) :
    (categorize_message t).1 ∈ categoryNames := by
  unfold categorize_message
  cases hs : scoreList (preprocess_text t) with
  | nil => exfalso; simp [scoreList, categories] at hs
  | cons s rest =>
    simp only
    have hmem : pyMax s rest ∈ s :: rest := by
      rcases pyMax_mem s rest with h | h
      · rw [h]; exact List.mem_cons_self _ _
      · exact List.mem_cons_of_mem s h
    have hmem2 : pyMax s rest ∈ scoreList (preprocess_text t) := by
      rw [hs]; exact hmem
    have hname : (pyMax s rest).1 ∈ categoryNames := by
      have : (pyMax s rest).1 ∈ (scoreList (preprocess_text t)).map Prod.fst :=
        List.mem_map_of_mem Prod.fst hmem2
      simpa [scoreList, categoryNames, List.map_map, Function.comp] using this
    split
    · show ("general" : String) ∈ categoryNames
      simp [categoryNames, categories]
    · exact hname

/-! ## Similarity engine and the processing pipeline of
`LocalMessageAnalyzer` -/

/-- Python 3's `round(x, 3)` uses round-half-to-even.  (The source rounds
binary floats; the model rounds the exact rational.) -/
def pyRound (x : ℚ) : ℤ :=
  if x - Rat.floor x < 1/2 then Rat.floor x
  else if 1/2 < x - Rat.floor x then Rat.floor x + 1
  else if Rat.floor x % 2 = 0 then Rat.floor x else Rat.floor x + 1

def round3 (q : ℚ) : ℚ := (pyRound (q * 1000) : ℚ) / 1000

/-- `LocalMessageAnalyzer.simple_similarity` (src/local_analyzer.py lines
177–192): Jaccard similarity of the two word sets of the preprocessed
texts.  Set cardinalities are computed through `dedup`. -/
def simple_similarity (t1 t2 : List Char) : ℚ :=
  let w1 := pyWords (preprocess_text t1)
  let w2 := pyWords (preprocess_text t2)
  if w1.isEmpty || w2.isEmpty then 0
  else
    let inter := (w1.dedup.filter fun w => w ∈ w2).length
    let union := (w1 ++ w2).dedup.length
    if union = 0 then 0 else (inter : ℚ) / (union : ℚ)

def textPreview (t : List Char) : List Char :=
  if 100 < t.length then t.take 100 ++ sl "..." else t

/-- `list(words1.intersection(words2))[:3]` of src/local_analyzer.py lines
210–212.  CPython's set iteration order is unspecified (hashes are salted
per process); the model fixes the first-occurrence order of the first
text's words.  No verified claim depends on this order. -/
def commonWords (t1 t2 : List Char) : List (List Char) :=
  ((pyWords (preprocess_text t1)).dedup.filter fun w =>
    w ∈ pyWords (preprocess_text t2)).take 3

/-- The candidate-collecting loop of `find_similar_tickets` (src/
local_analyzer.py lines 199–220): every stored message other than the
query itself whose similarity exceeds the 0.2 threshold. -/
def similar_candidates (msgs : List SlackMessage) (m : SlackMessage) :
    List SimilarTicket :=
  msgs.filterMap fun ex =>
    if ex.id = m.id then none
    else
      if 1/5 < simple_similarity m.text ex.text then
        some { ticket_id := ex.id
               similarity_score := round3 (simple_similarity m.text ex.text)
               category :=
                 match ex.category with
                 | some c => if c = "" then "general" else c
                 | none => "general"
               key_phrases := commonWords m.text ex.text
               text_preview := textPreview ex.text }
      else none

/-- Stable insertion into a descending list: the new element goes after
all elements with a greater-or-equal score, which is exactly where
Python's stable `list.sort(key=score, reverse=True)` leaves it. -/
def insDesc (x : SimilarTicket) : List SimilarTicket → List SimilarTicket
  | [] => [x]
  | y :: ys =>
    if y.similarity_score < x.similarity_score then x :: y :: ys
    else y :: insDesc x ys

def sortBySimDesc (l : List SimilarTicket) : List SimilarTicket :=
  l.foldl (fun acc x => insDesc x acc) []

/-- `LocalMessageAnalyzer.find_similar_tickets` (src/local_analyzer.py
lines 194–224).  NOTE the guard on line 196: the whole search is skipped
whenever the store holds at most one message (`not self.messages or
len(self.messages) <= 1`), even though the query message itself is not in
the store at that point. -/
def find_similar_tickets (msgs : List SlackMessage) (m : SlackMessage)
    (top_k : Nat) : List SimilarTicket :=
  if msgs.length ≤ 1 then []
  else (sortBySimDesc (similar_candidates msgs m)).take top_k

/-! ## Input records and `process_message` -/

/-- The `ts` field of an input record.  A string carries the result of
`float(s)` as an oracle (`none` = the string is unparsable). -/
inductive TsField where
  | num (q : ℚ)
  | str (s : List Char) (parsed : Option ℚ)
  | dt (q : ℚ)
  | absent
deriving DecidableEq

structure InputRecord where
  id : Option String := none
  text : List Char := []
  user : Option String := none
  channel : Option String := none
  ts : TsField := .absent
  thread_ts : Option String := none
  reactions : Option (List String) := none
deriving DecidableEq

/-- Timestamp resolution of `LocalMessageAnalyzer.process_message`
(src/local_analyzer.py lines 229–236): a parsable string is taken at its
value, an unparsable string falls back to `datetime.now()` through the
`except`, an actual datetime is kept, and anything else (numbers, absent)
fails the `isinstance(timestamp, datetime)` test and becomes
`datetime.now()`. -/
def resolveTs : TsField → ℚ → ℚ
  | .str _ (some p), _ => p
  | .str _ none, now => now
  | .dt q, _ => q
  | .num _, now => now
  | .absent, now => now

/-- `str(hash(text))` for records without an explicit id.  CPython string
hashes are salted per process, so any concrete value is a stand-in; no
verified claim depends on it. -/
def textHashId (t : List Char) : String := String.mk t

structure AnalyzerState where
  messages : List SlackMessage := []
  word_frequency : List (List Char) := []
deriving DecidableEq

def emptyState : AnalyzerState := {}

/-- `LocalMessageAnalyzer.process_message` (src/local_analyzer.py lines
226–265): build the message, categorize, score, search similar tickets in
the store as it was BEFORE this call, then append to the store. -/
def process_message (d : InputRecord) (now : ℚ) (st : AnalyzerState) :
    SlackMessage × AnalyzerState :=
  let m0 : SlackMessage :=
    { id := d.id.getD (textHashId d.text)
      text := d.text
      user := d.user.getD "unknown"
      channel := d.channel.getD "general"
      timestamp := resolveTs d.ts now
      thread_ts := d.thread_ts
      reactions := d.reactions.getD [] }
  let m1 := { m0 with category := some (categorize_message m0.text).1 }
  let m2 := { m1 with
    priority_score := some (calculate_priority_score m1 now) }
  let m3 := { m2 with
    similar_tickets := some (find_similar_tickets st.messages m2 5) }
  (m3, { messages := st.messages ++ [m3],
         word_frequency :=
           st.word_frequency ++ pyWords (preprocess_text m3.text) })

/-- `LocalMessageAnalyzer.batch_process_messages` (src/local_analyzer.py
lines 267–279), records processed strictly in order.  `process_message`
is total, so the `except` branch is dead and every record yields an
output. -/
def batch_process_messages (now : ℚ) :
    List InputRecord → AnalyzerState → List SlackMessage × AnalyzerState
  | [], st => ([], st)
  | r :: rs, st =>
    let p := process_message r now st
    let rest := batch_process_messages now rs p.2
    (p.1 :: rest.1, rest.2)

/-! ## The second implementation: `MessageAnalyzer`
(src/src/message_analyzer.py) -/

/-- Character class of the URL body in `MessageAnalyzer.preprocess_text`:
letters, digits, the range `$`–`_` (which subsumes `@ . & + % ( ) * ,`
and backslash), and `!`. -/
def maUrlChar (c : Char) : Bool :=
  (65 ≤ c.toNat && c.toNat ≤ 90) || (97 ≤ c.toNat && c.toNat ≤ 122) ||
    (36 ≤ c.toNat && c.toNat ≤ 95) || (48 ≤ c.toNat && c.toNat ≤ 57) ||
    c.toNat = 33

def maUrlMatch (l : List Char) : Option Nat :=
  if ("https://".toList).isPrefixOf l then
    let r := takeRun maUrlChar (l.drop 8)
    if 0 < r then some (8 + r) else none
  else if ("http://".toList).isPrefixOf l then
    let r := takeRun maUrlChar (l.drop 7)
    if 0 < r then some (7 + r) else none
  else none

/-- `MessageAnalyzer.preprocess_text` (src/src/message_analyzer.py lines
98–107): identical to the local variant apart from the URL pattern. -/
def preprocess_textMA (l : List Char) : List Char :=
  lowerL (collapseWS (cleanChars
    (scanStrip emojiMatch (scanStrip channelMatch
      (scanStrip mentionMatch (scanStrip maUrlMatch l))))))

structure CatRulesMA where
  keywords : List (List Char)
  patterns : List Pat

/-- Category rules of `MessageAnalyzer` (src/src/message_analyzer.py
lines 49–85), in configuration order (colors omitted: nothing reads
them). -/
def categoriesMA : List (String × CatRulesMA) :=
  [ ("bug_report",
      { keywords := [sl "bug", sl "error", sl "issue", sl "problem",
          sl "broken", sl "not working", sl "crash", sl "fail"]
        patterns := [.seq [sl "error", sl "code"], .seq [sl "exception"],
          .seq [sl "stack trace"], .seq [sl "500", sl "error"],
          .seq [sl "404", sl "error"]] }),
    ("feature_request",
      { keywords := [sl "feature", sl "enhancement", sl "improve", sl "add",
          sl "new", sl "request", sl "would like", sl "could we"]
        patterns := [.seq [sl "can", sl "we", sl "add"],
          .seq [sl "would", sl "be", sl "nice"],
          .seq [sl "feature", sl "request"]] }),
    ("question",
      { keywords := [sl "how", sl "what", sl "where", sl "when", sl "why",
          sl "help", sl "question", sl "?"]
        patterns := [.endsQ, .seq [sl "how", sl "to"],
          .seq [sl "what", sl "is"], .seq [sl "can", sl "someone"]] }),
    ("urgent",
      { keywords := [sl "urgent", sl "asap", sl "emergency", sl "critical",
          sl "down", sl "outage", sl "production"]
        patterns := [.seq [sl "urgent", sl "help"],
          .seq [sl "production", sl "down"],
          .seq [sl "critical", sl "issue"]] }),
    ("deployment",
      { keywords := [sl "deploy", sl "release", sl "push", sl "merge",
          sl "build", sl "ci/cd", sl "pipeline"]
        patterns := [.seq [sl "deploy", sl "to"],
          .seq [sl "release", sl "notes"], .seq [sl "build", sl "failed"]] }),
    ("access_request",
      { keywords := [sl "access", sl "permission", sl "login", sl "password",
          sl "account", sl "credential"]
        patterns := [.seq [sl "need", sl "access"],
          .seq [sl "can", sl "t", sl "login"],
          .seq [sl "permission", sl "denied"]] }),
    ("general",
      { keywords := [sl "update", sl "info", sl "fyi", sl "notice",
          sl "announcement"]
        patterns := [.seq [sl "fyi"], .seq [sl "heads", sl "up"],
          .seq [sl "just", sl "to", sl "let", sl "you", sl "know"]] })]

def catScoreMA (cfg : CatRulesMA) (t : List Char) : Nat :=
  (cfg.keywords.countP fun k => containsSub k t) +
    2 * (cfg.patterns.countP fun p => patMatch p t)

def scoreListMA (t : List Char) : List (String × Nat) :=
  categoriesMA.map fun c => (c.1, catScoreMA c.2 t)

/-- `MessageAnalyzer.categorize_message` (src/src/message_analyzer.py
lines 109–141): the same maximum/fallback/normalization rule as the local
variant. -/
def categorize_messageMA (text : List Char) : String × ℚ :=
  let scores := scoreListMA (preprocess_textMA text)
  let best :=
    match scores with
    | [] => ("", 0)
    | s :: rest => pyMax s rest
  let bestName := if best.2 = 0 then "general" else best.1
  let bestScore : ℚ := if best.2 = 0 then 1/10 else (best.2 : ℚ)
  (bestName, pymin (bestScore / 5) 1)

def urgent_keywordsMA : List (List Char) :=
  [sl "urgent", sl "asap", sl "emergency", sl "critical", sl "production",
    sl "down", sl "outage"]

/-- The urgency-keyword loop of `MessageAnalyzer.calculate_priority_score`
(src/src/message_analyzer.py lines 149–152): `for keyword: if keyword in
text: score += 0.3` — NO `break`, so 0.3 is added once per matching
keyword. -/
def urgencyLoopMA : List (List Char) → List Char → ℚ
  | [], _ => 0
  | k :: ks, t => (if containsSub k t then 3/10 else 0) + urgencyLoopMA ks t

def timeBonusMA (ts now : ℚ) : ℚ :=
  if (now - ts) / 3600 < 1 then 1/5
  else if (now - ts) / 3600 < 24 then 1/10
  else 0

/-- `MessageAnalyzer.calculate_priority_score` (src/src/message_analyzer.py
lines 143–178) before the final cap. -/
def priority_rawMA (m : SlackMessage) (now : ℚ) : ℚ :=
  urgencyLoopMA urgent_keywordsMA (preprocess_textMA m.text)
    + (countChar '?' (preprocess_textMA m.text) : ℚ) * (1/10)
    + (if 100 < (preprocess_textMA m.text).length then 1/5 else 0)
    + timeBonusMA m.timestamp now
    + (if 2 < m.reactions.length then 1/5 else 0)
    + (if m.category = some "urgent" ∨ m.category = some "bug_report" then
        2/5
      else if m.category = some "feature_request" ∨
          m.category = some "access_request" then 1/5
      else 0)

def calculate_priority_scoreMA (m : SlackMessage) (now : ℚ) : ℚ :=
  pymin (priority_rawMA m now) 1

/-- "cosine similarity between dense vector embeddings of the two
normalized texts".  Modelled from the spec: the embedding model
(`SentenceTransformer.encode`, an external collaborator outside this
repository) is "treated as a black-box function"; the model fixes an
arbitrary total stand-in.  No verified claim depends on its values. -/
def semanticSim (t1 t2 : List Char) : ℚ := if t1 = t2 then 1 else 0

/-- "fuzzy string-edit signal normalized to [0,1]".  Modelled from the
spec: `fuzz.ratio` comes from the external fuzzywuzzy library; black-box
stand-in, no verified claim depends on its values. -/
def fuzzySim (t1 t2 : List Char) : ℚ := if t1 = t2 then 1 else 0

/-- `MessageAnalyzer._extract_key_phrases` (src/src/message_analyzer.py
lines 221–234). -/
def extract_key_phrases (t : List Char) (maxP : Nat) : List (List Char) :=
  let ws := pyWords t
  ((ws.zip ws.tail).filterMap fun p =>
    if 3 < p.1.length ∧ 3 < p.2.length ∧
        6 < p.1.length + 1 + p.2.length then
      some (p.1 ++ ' ' :: p.2)
    else none).take maxP

structure TicketSimilarity where
  ticket_id : String
  similarity_score : ℚ
  category : String
  key_phrases : List (List Char)
deriving DecidableEq

def insDescMA (x : TicketSimilarity) :
    List TicketSimilarity → List TicketSimilarity
  | [] => [x]
  | y :: ys =>
    if y.similarity_score < x.similarity_score then x :: y :: ys
    else y :: insDescMA x ys

def sortBySimDescMA (l : List TicketSimilarity) : List TicketSimilarity :=
  l.foldl (fun acc x => insDescMA x acc) []

/-- `MessageAnalyzer.find_similar_tickets` (src/src/message_analyzer.py
lines 180–219): combined score `0.7·cosine + 0.3·fuzzy`, threshold 0.3,
no store-size guard beyond emptiness. -/
def find_similar_ticketsMA (msgs : List SlackMessage) (m : SlackMessage)
    (top_k : Nat) : List TicketSimilarity :=
  if msgs.isEmpty then []
  else
    (sortBySimDescMA (msgs.filterMap fun ex =>
      if ex.id = m.id then none
      else
        let combined :=
          semanticSim (preprocess_textMA m.text) (preprocess_textMA ex.text)
              * (7/10)
            + fuzzySim (preprocess_textMA m.text) (preprocess_textMA ex.text)
              * (3/10)
        if 3/10 < combined then
          some { ticket_id := ex.id
                 similarity_score := combined
                 category :=
                   match ex.category with
                   | some c => if c = "" then "general" else c
                   | none => "general"
                 key_phrases :=
                   extract_key_phrases (preprocess_textMA ex.text) 3 }
        else none)).take top_k

/-- `MessageAnalyzer`'s message record: `similar_tickets` holds
`TicketSimilarity` values here. -/
structure SlackMessageMA where
  id : String
  text : List Char
  user : String
  channel : String
  timestamp : ℚ
  thread_ts : Option String := none
  reactions : List String := []
  category : Option String := none
  priority_score : Option ℚ := none
  similar_tickets : Option (List TicketSimilarity) := none
deriving DecidableEq

def toMA (m : SlackMessage) : SlackMessageMA :=
  { id := m.id, text := m.text, user := m.user, channel := m.channel,
    timestamp := m.timestamp, thread_ts := m.thread_ts,
    reactions := m.reactions, category := m.category,
    priority_score := m.priority_score }

def ofMA (m : SlackMessageMA) : SlackMessage :=
  { id := m.id, text := m.text, user := m.user, channel := m.channel,
    timestamp := m.timestamp, thread_ts := m.thread_ts,
    reactions := m.reactions, category := m.category,
    priority_score := m.priority_score }

/-- Timestamp resolution of `MessageAnalyzer.process_message` (src/src/
message_analyzer.py line 244): `datetime.fromtimestamp(float(
message_data.get('ts', datetime.now().timestamp())))` — there is NO
`try`, so `float` of an unparsable string (or of a datetime) raises and
`none` models the exception. -/
def resolveTsMA : TsField → ℚ → Option ℚ
  | .num q, _ => some q
  | .str _ (some p), _ => some p
  | .str _ none, _ => none
  | .dt _, _ => none
  | .absent, now => some now

/-- `MessageAnalyzer.process_message` (src/src/message_analyzer.py lines
236–264).  `none` models the exception escaping from the timestamp
parse, which happens before any state change. -/
def process_messageMA (d : InputRecord) (now : ℚ)
    (st : List SlackMessageMA) :
    Option (SlackMessageMA × List SlackMessageMA) :=
  match resolveTsMA d.ts now with
  | none => none
  | some ts =>
    let m0 : SlackMessageMA :=
      { id := d.id.getD (textHashId d.text)
        text := d.text
        user := d.user.getD "unknown"
        channel := d.channel.getD "general"
        timestamp := ts
        thread_ts := d.thread_ts
        reactions := d.reactions.getD [] }
    let m1 := { m0 with category := some (categorize_messageMA m0.text).1 }
    let m2 := { m1 with
      priority_score := some (calculate_priority_scoreMA (ofMA m1) now) }
    let m3 := { m2 with
      similar_tickets :=
        some (find_similar_ticketsMA (st.map ofMA) (ofMA m2) 5) }
    some (m3, st ++ [m3])

/-- `MessageAnalyzer.batch_process_messages` (src/src/message_analyzer.py
lines 266–278): a record whose processing raises is logged and skipped;
the batch continues. -/
def batch_process_messagesMA (now : ℚ) :
    List InputRecord → List SlackMessageMA →
      List SlackMessageMA × List SlackMessageMA
  | [], st => ([], st)
  | r :: rs, st =>
    match process_messageMA r now st with
    | none => batch_process_messagesMA now rs st
    | some p =>
      let rest := batch_process_messagesMA now rs p.2
      (p.1 :: rest.1, rest.2)

/-! ## Analytics (`LocalMessageAnalyzer.get_analytics_data`,
src/local_analyzer.py lines 281–317) -/

/-- `collections.Counter` built by one pass: first-seen key order. -/
def bump {α : Type} [DecidableEq α] (x : α) :
    List (α × Nat) → List (α × Nat)
  | [] => [(x, 1)]
  | (y, n) :: rest =>
    if x = y then (y, n + 1) :: rest else (y, n) :: bump x rest

def histo {α : Type} [DecidableEq α] (l : List α) : List (α × Nat) :=
  l.foldl (fun acc x => bump x acc) []

/-- Stable descending sort by count — the behaviour of
`Counter.most_common(n)` (equivalent to `sorted(..., reverse=True)[:n]`,
which is stable). -/
def insCountDesc {α : Type} (x : α × Nat) :
    List (α × Nat) → List (α × Nat)
  | [] => [x]
  | y :: ys => if y.2 < x.2 then x :: y :: ys else y :: insCountDesc x ys

def sortCountDesc {α : Type} (l : List (α × Nat)) : List (α × Nat) :=
  l.foldl (fun acc x => insCountDesc x acc) []

structure Analytics where
  total_messages : Nat
  categories : List (Option String × Nat)
  priority_high : Nat
  priority_medium : Nat
  priority_low : Nat
  recent_messages : Nat
  top_users : List (String × Nat)
  top_channels : List (String × Nat)
  avg_priority : ℚ
  top_words : List (List Char × Nat)
deriving DecidableEq

/-- Reading `msg.priority_score` in the analytics comparisons.  Every
message that the pipeline stores carries `some` score (see the store
invariant), so the default is never exercised on reachable states. -/
def prOf (m : SlackMessage) : ℚ := m.priority_score.getD 0

/-- `get_analytics_data`: `{}` (modelled as `none`) when no message has
been processed, otherwise the summary record; the mean divides by the
length only in the nonempty branch. -/
def get_analytics_data (st : AnalyzerState) (now : ℚ) : Option Analytics :=
  if st.messages.isEmpty then none
  else some
    { total_messages := st.messages.length
      categories := histo (st.messages.map (·.category))
      priority_high := st.messages.countP fun m => decide (7/10 < prOf m)
      priority_medium := st.messages.countP fun m =>
        decide (3/10 < prOf m ∧ prOf m ≤ 7/10)
      priority_low := st.messages.countP fun m => decide (prOf m ≤ 3/10)
      recent_messages := st.messages.countP fun m =>
        decide (now - m.timestamp < 86400)
      top_users := (sortCountDesc (histo (st.messages.map (·.user)))).take 5
      top_channels :=
        (sortCountDesc (histo (st.messages.map (·.channel)))).take 5
      avg_priority := (st.messages.map prOf).sum / (st.messages.length : ℚ)
      top_words := (sortCountDesc (histo st.word_frequency)).take 10 }

/-! ## Helper lemmas for the claims -/

/-- When every category scores 0, `categorize_message` takes the fallback
branch: `('general', min(0.1 / 5.0, 1.0))`. -/
theorem categorize_of_all_zero (t : List Char)
    (h : ∀ y ∈ scoreList (preprocess_text t), y.2 = 0) :
    categorize_message t = ("general", 1/50) := by
  unfold categorize_message
  cases hs : scoreList (preprocess_text t) with
  | nil => exfalso; simp [scoreList, categories] at hs
  | cons s rest =>
    have hall : ∀ y ∈ s :: rest, y.2 = 0 := fun y hy => h y (hs ▸ hy)
    have hs0 : s.2 = 0 := hall s (List.mem_cons_self _ _)
    have hbest : pyMax s rest = s :=
      pyMax_of_ge s rest fun y hy => by
        rw [hall y (List.mem_cons_of_mem s hy), hs0]
    simp only [hs, hbest, hs0, if_pos]
    have : pymin ((1:ℚ)/10 / 5) 1 = 1/50 := by
      rw [pymin]; norm_num
    rw [this]

/-- When the maximal score is positive, `categorize_message` returns the
FIRST category attaining the maximum, with confidence
`min(best_score / 5.0, 1.0)`. -/
theorem categorize_of_max_pos (t : List Char)
    (hpos : 0 < maxSnd (scoreList (preprocess_text t))) :
    ∃ w, (scoreList (preprocess_text t)).find?
        (fun y => y.2 == maxSnd (scoreList (preprocess_text t))) = some w ∧
      categorize_message t = (w.1, pymin ((w.2 : ℚ) / 5) 1) := by
  cases hs : scoreList (preprocess_text t) with
  | nil => rw [hs] at hpos; simp [maxSnd] at hpos
  | cons s rest =>
    refine ⟨pyMax s rest, ?_, ?_⟩
    · exact pyMax_first_max s rest
    · have hp := List.find?_some (pyMax_first_max s rest)
      have hM : (pyMax s rest).2 = maxSnd (s :: rest) := by
        simpa using hp
      have hne : ¬ (pyMax s rest).2 = 0 := by
        rw [hM]; rw [hs] at hpos; omega
      unfold categorize_message
      simp only [hs, if_neg hne]

theorem urgencyLoop_once (ks : List (List Char)) (t : List Char) :
    urgencyLoop ks t =
      if ks.any (fun k => containsSub k t) then 1/5 else 0 := by
  induction ks with
  | nil => simp [urgencyLoop]
  | cons k ks ih =>
    unfold urgencyLoop
    cases hk : containsSub k t with
    | true => simp [hk]
    | false => simp [hk, ih]

theorem urgencyLoopMA_per_keyword (ks : List (List Char)) (t : List Char) :
    urgencyLoopMA ks t =
      ((ks.countP fun k => containsSub k t : Nat) : ℚ) * (3/10) := by
  induction ks with
  | nil => simp [urgencyLoopMA]
  | cons k ks ih =>
    unfold urgencyLoopMA
    rw [List.countP_cons, ih]
    cases hk : containsSub k t with
    | true => simp [hk]; ring
    | false => simp [hk]

/-! ### Batch-processing lemmas -/

theorem process_message_timestamp (r : InputRecord) (now : ℚ)
    (st : AnalyzerState) :
    (process_message r now st).1.timestamp = resolveTs r.ts now := rfl

theorem process_message_category (r : InputRecord) (now : ℚ)
    (st : AnalyzerState) :
    ∃ c, (process_message r now st).1.category = some c ∧
      c = (categorize_message r.text).1 := ⟨_, rfl, rfl⟩

theorem process_message_state (r : InputRecord) (now : ℚ)
    (st : AnalyzerState) :
    (process_message r now st).2.messages =
      st.messages ++ [(process_message r now st).1] := rfl

theorem batch_length (now : ℚ) (rs : List InputRecord) :
    ∀ st, (batch_process_messages now rs st).1.length = rs.length := by
  induction rs with
  | nil => intro st; rfl
  | cons r rs ih =>
    intro st
    simp only [batch_process_messages, List.length_cons]
    rw [ih]

theorem batch_get_timestamp (now : ℚ) (rs : List InputRecord) :
    ∀ (st : AnalyzerState) (i : Nat) (r : InputRecord), rs.get? i = some r →
      ((batch_process_messages now rs st).1.get? i).map (·.timestamp) =
        some (resolveTs r.ts now) := by
  induction rs with
  | nil => intro st i r h; simp at h
  | cons q rs ih =>
    intro st i r h
    cases i with
    | zero =>
      have : q = r := by simpa using h
      subst this
      simp only [batch_process_messages, List.get?]
      simp [process_message_timestamp]
    | succ j =>
      have hj : rs.get? j = some r := by simpa using h
      simp only [batch_process_messages, List.get?]
      exact ih _ j r hj

theorem batch_messages_eq (now : ℚ) (rs : List InputRecord) :
    ∀ st, (batch_process_messages now rs st).2.messages =
      st.messages ++ (batch_process_messages now rs st).1 := by
  induction rs with
  | nil => intro st; simp [batch_process_messages]
  | cons r rs ih =>
    intro st
    simp only [batch_process_messages]
    rw [ih, process_message_state]
    simp

theorem batch_append (now : ℚ) (rs1 rs2 : List InputRecord) :
    ∀ st, batch_process_messages now (rs1 ++ rs2) st =
      ((batch_process_messages now rs1 st).1 ++
        (batch_process_messages now rs2
          (batch_process_messages now rs1 st).2).1,
       (batch_process_messages now rs2
          (batch_process_messages now rs1 st).2).2) := by
  induction rs1 with
  | nil => intro st; simp [batch_process_messages]
  | cons r rs ih =>
    intro st
    have hc : (r :: rs) ++ rs2 = r :: (rs ++ rs2) := rfl
    rw [hc]
    simp only [batch_process_messages]
    rw [ih]
    simp

/-- Enrichment invariant of a single processed message. -/
def goodMsg (m : SlackMessage) : Prop :=
  (∃ c, m.category = some c ∧ c ∈ categoryNames ∧ c ≠ "") ∧
  ∃ p, m.priority_score = some p ∧ 0 ≤ p ∧ p ≤ 1

theorem categoryNames_nonempty_names :
    ∀ n ∈ categoryNames, n ≠ "" := by decide

theorem process_message_good (r : InputRecord) (now : ℚ)
    (st : AnalyzerState) : goodMsg (process_message r now st).1 := by
  constructor
  · refine ⟨(categorize_message r.text).1, rfl, ?_, ?_⟩
    · exact categorize_name_mem r.text
    · exact categoryNames_nonempty_names _ (categorize_name_mem r.text)
  · exact ⟨_, rfl, calculate_priority_score_nonneg _ now,
      calculate_priority_score_le_one _ now⟩

theorem batch_outputs_good (now : ℚ) (rs : List InputRecord) :
    ∀ st, ∀ m ∈ (batch_process_messages now rs st).1, goodMsg m := by
  induction rs with
  | nil => intro st m h; simp [batch_process_messages] at h
  | cons r rs ih =>
    intro st m h
    simp only [batch_process_messages] at h
    rcases List.mem_cons.mp h with h1 | h1
    · rw [h1]; exact process_message_good r now st
    · exact ih _ m h1

/-! ## The claims -/

set_option maxRecDepth 8000

/-- C4: for every message (any text, any category, any timestamp, any
reaction list) `calculate_priority_score` returns a value in `[0,1]`, and
for every input text `categorize_message` returns a confidence in
`[0,1]`. -/
theorem C4_priority_and_confidence_bounds :
    (∀ (m : SlackMessage) (now : ℚ),
      0 ≤ calculate_priority_score m now ∧
        calculate_priority_score m now ≤ 1) ∧
    ∀ t : List Char,
      0 ≤ (categorize_message t).2 ∧ (categorize_message t).2 ≤ 1 :=
  ⟨fun m now => ⟨calculate_priority_score_nonneg m now,
      calculate_priority_score_le_one m now⟩,
    fun t => ⟨confidence_nonneg t, confidence_le_one t⟩⟩

/-- C1 counterexample: on a text (`"zzz"`) scoring 0 in every category,
both analyzers return the fallback `'general'` with confidence
`min(0.1 / 5.0, 1.0) = 0.02` — the raw fallback score `0.1` is divided by
the normalization constant like any other score — so the confidence is
`0.02`, not the claimed `0.1`. -/
theorem C1_counterexample_fallback_confidence :
    categorize_message (sl "zzz") = ("general", 1/50) ∧
    categorize_messageMA (sl "zzz") = ("general", 1/50) ∧
    ¬ ((1 : ℚ)/50 = 1/10) := by
  refine ⟨?_, ?_, by norm_num⟩ <;> with_unfolding_all decide

/-- C1 amended: for every input text whose accumulated score is 0 against
every configured category's keywords and patterns, `categorize_message`
returns the fallback category `'general'` together with a confidence
equal to 0.02 (= 0.1 / 5.0) — not 0 and not an error. -/
theorem C1_amended_fallback (t : List Char)
    (h : ∀ c ∈ categories, catScore c.2 (preprocess_text t) = 0) :
    categorize_message t = ("general", 1/50) := by
  apply categorize_of_all_zero
  intro y hy
  rcases List.mem_map.mp hy with ⟨c, hc, rfl⟩
  exact h c hc

theorem C1_amended_fallback_witness :
    (∀ c ∈ categories, catScore c.2 (preprocess_text (sl "zzz")) = 0) ∧
    categorize_message (sl "zzz") = ("general", 1/50) :=
  ⟨by with_unfolding_all decide,
    C1_amended_fallback (sl "zzz") (by with_unfolding_all decide)⟩

/-- C3 counterexample: on a text (`"qqq"`) every category attains the same
maximal accumulated score (namely 0, a tie of all seven), the category
that appears first in the fixed configuration order is `'bug_report'`,
yet `categorize_message` selects `'general'`: the zero-score fallback
overrides the first-in-order tie-break. -/
theorem C3_counterexample_zero_score_tie :
    (∀ y ∈ scoreList (preprocess_text (sl "qqq")), y.2 = 0) ∧
    1 < ((scoreList (preprocess_text (sl "qqq"))).filter
        fun y => y.2 == maxSnd (scoreList (preprocess_text (sl "qqq")))).length ∧
    (categories.map Prod.fst).head? = some "bug_report" ∧
    (categorize_message (sl "qqq")).1 = "general" ∧
    ¬ ((categorize_message (sl "qqq")).1 = "bug_report") := by
  refine ⟨?_, ?_, ?_, ?_, ?_⟩ <;> with_unfolding_all decide

/-- C3 amended: for every input text for which two or more categories
attain the same maximal accumulated score AND that maximal score is
positive, `categorize_message` selects the category that appears first in
the fixed configuration order (the first entry of the score list that
attains the maximum), with the scoring rule that each keyword substring
hit adds 1 and each regex pattern match adds 2.  (When the maximum is 0
the fallback overrides the tie-break.) -/
theorem C3_amended_tie_break (t : List Char)
    (_htie : 1 < ((scoreList (preprocess_text t)).filter
        fun y => y.2 == maxSnd (scoreList (preprocess_text t))).length)
    (hpos : 0 < maxSnd (scoreList (preprocess_text t))) :
    ∃ w, (scoreList (preprocess_text t)).find?
        (fun y => y.2 == maxSnd (scoreList (preprocess_text t))) = some w ∧
      categorize_message t = (w.1, pymin ((w.2 : ℚ) / 5) 1) :=
  categorize_of_max_pos t hpos

theorem C3_amended_tie_break_witness :
    (1 < ((scoreList (preprocess_text (sl "deploy access"))).filter
        fun y => y.2 ==
          maxSnd (scoreList (preprocess_text (sl "deploy access")))).length) ∧
    (0 < maxSnd (scoreList (preprocess_text (sl "deploy access")))) ∧
    ∃ w, (scoreList (preprocess_text (sl "deploy access"))).find?
        (fun y => y.2 ==
          maxSnd (scoreList (preprocess_text (sl "deploy access")))) =
          some w ∧
      categorize_message (sl "deploy access") =
        (w.1, pymin ((w.2 : ℚ) / 5) 1) :=
  ⟨by with_unfolding_all decide, by with_unfolding_all decide,
    C3_amended_tie_break (sl "deploy access")
      (by with_unfolding_all decide) (by with_unfolding_all decide)⟩

/-- The concrete long message of the C5 check: 250 word characters, so
the preprocessed text has length 250 (above both thresholds). -/
def c5_message : SlackMessage :=
  { id := "m250", text := List.replicate 250 'a', user := "u",
    channel := "c", timestamp := 0 }

/-- C5 (code bug): in `calculate_priority_score` the length branch reads
`if len(text) > 100: score += 0.1 elif len(text) > 200: score += 0.2`, so
the `elif` is unreachable and a text of length 250 receives the SMALL
bonus 0.1, not the claimed 0.2.  For `c5_message` (length 250, zero for
every other signal except the 0.15 recency bonus) the total score is
`0.1 + 0.15 = 0.25`; were the two-tier rule implemented as specified it
would be `0.2 + 0.15 = 0.35`. -/
theorem C5_long_text_gets_small_bonus :
    lengthBonus 250 = 1/10 ∧ lengthBonus 150 = 1/10 ∧
    ¬ lengthBonus 250 = 1/5 ∧
    (c5_message.text.length = 250 ∧
      preprocess_text c5_message.text = c5_message.text) ∧
    calculate_priority_score c5_message 0 = 1/4 ∧
    ¬ calculate_priority_score c5_message 0 = 7/20 := by
  refine ⟨?_, ?_, ?_, ⟨?_, ?_⟩, ?_, ?_⟩ <;> with_unfolding_all decide

/-- C6 counterexample: `MessageAnalyzer.calculate_priority_score`
(src/src/message_analyzer.py lines 149–152) has no `break` in its urgency
loop: the text `"production down"` contains two urgent terms and receives
`0.3 + 0.3 = 0.6` from the urgency signal — once PER matching term, not
once.  The whole score is `0.6 + 0.2 (recency) = 0.8` where a
once-only increment would give `0.5`. -/
theorem C6_counterexample_per_term :
    urgencyLoopMA urgent_keywordsMA
        (preprocess_textMA (sl "production down")) = 3/5 ∧
    calculate_priority_scoreMA
      { id := "m", text := sl "production down", user := "u",
        channel := "c", timestamp := 0 } 0 = 4/5 ∧
    ¬ ((3 : ℚ)/5 = 3/10) := by
  refine ⟨?_, ?_, by norm_num⟩ <;> with_unfolding_all decide

/-- C6 amended: in `LocalMessageAnalyzer.calculate_priority_score`
(src/local_analyzer.py) the urgency increment 0.2 is added exactly once
as soon as any urgent term appears, regardless of how many terms match —
the loop `break`s after the first hit; in `MessageAnalyzer`
(src/src/message_analyzer.py) the 0.3 increment is instead added once per
matching term. -/
theorem C6_amended_urgency_once :
    (∀ t : List Char, urgencyLoop urgent_keywords t =
      if urgent_keywords.any (fun k => containsSub k t) then 1/5 else 0) ∧
    ∀ t : List Char, urgencyLoopMA urgent_keywordsMA t =
      ((urgent_keywordsMA.countP fun k => containsSub k t : Nat) : ℚ) *
        (3/10) :=
  ⟨fun t => urgencyLoop_once urgent_keywords t,
    fun t => urgencyLoopMA_per_keyword urgent_keywordsMA t⟩

/-- C7 counterexample: the normalizer is NOT idempotent on every input
string.  For 'İ' (U+0130) the first pass keeps the letter (it is `\w`)
and `str.lower` maps it to the two characters 'i' + U+0307; on the
second pass the combining mark U+0307 is not a word character, so
`re.sub(r'[^\w\s?!.]', ' ', ...)` replaces it with a space that the
whitespace collapse then drops:
`preprocess_text(preprocess_text('İ')) = 'i' ≠ 'i' + U+0307 =
preprocess_text('İ')`. -/
theorem C7_counterexample_dotted_capital_I :
    preprocess_text ['İ'] = ['i', Char.ofNat 775] ∧
    preprocess_text (preprocess_text ['İ']) = ['i'] ∧
    ¬ preprocess_text (preprocess_text ['İ']) = preprocess_text ['İ'] := by
  refine ⟨?_, ?_, ?_⟩ <;> decide

/-- C7 amended: the text normalizer is idempotent on every ASCII input:
for every string t all of whose characters are ASCII code points,
`preprocess_text (preprocess_text t) = preprocess_text t`. -/
theorem C7_amended_normalizer_idempotent_on_ascii (t : List Char)
    (h : ∀ c ∈ t, c.toNat < 128) :
    preprocess_text (preprocess_text t) = preprocess_text t :=
  preprocess_text_idem_of_ascii t h

theorem C7_amended_normalizer_idempotent_on_ascii_witness :
    (∀ c ∈ sl "URGENT: Server <@U42> is Down! :fire: https://x.io/a",
      c.toNat < 128) ∧
    preprocess_text (preprocess_text
        (sl "URGENT: Server <@U42> is Down! :fire: https://x.io/a")) =
      preprocess_text
        (sl "URGENT: Server <@U42> is Down! :fire: https://x.io/a") :=
  ⟨by decide, C7_amended_normalizer_idempotent_on_ascii _ (by decide)⟩

def c2_first : InputRecord :=
  { id := some "m1", text := sl "server down in prod", ts := .num 0 }

def c2_second : InputRecord :=
  { id := some "m2", text := sl "prod server is down", ts := .num 0 }

/-- C2 (code bug): processing `"server down in prod"` and then
`"prod server is down"` from a fresh engine leaves the second message
with an EMPTY `similar_tickets` list: when the second message is
processed the store holds exactly one message (the query is appended only
afterwards), so the guard `len(self.messages) <= 1` on line 196 of
src/local_analyzer.py skips the search entirely.  The candidate loop
itself, run on that store, would have returned the first message with
Jaccard similarity `3/5 = 0.6`, above both the code threshold 0.2 and the
spec threshold 0.3. -/
theorem C2_second_message_similarity_empty :
    (process_message c2_second 0
        (process_message c2_first 0 emptyState).2).1.similar_tickets =
      some [] ∧
    simple_similarity (sl "prod server is down")
      (sl "server down in prod") = 3/5 ∧
    ((1 : ℚ)/5 < 3/5 ∧ (3 : ℚ)/10 ≤ 3/5) ∧
    (similar_candidates (process_message c2_first 0 emptyState).2.messages
        (process_message c2_second 0
          (process_message c2_first 0 emptyState).2).1).map
      (fun tk => (tk.ticket_id, tk.similarity_score)) = [("m1", 3/5)] := by
  refine ⟨?_, ?_, by norm_num, ?_⟩ <;> with_unfolding_all decide

def c8_bad : InputRecord :=
  { id := some "r5", text := sl "hello",
    ts := .str (sl "not-a-number") none }

def c8_ok (n : String) : InputRecord :=
  { id := some n, text := sl "hello", ts := .num 0 }

def c8_records : List InputRecord :=
  [c8_ok "r1", c8_ok "r2", c8_ok "r3", c8_ok "r4", c8_bad,
    c8_ok "r6", c8_ok "r7", c8_ok "r8", c8_ok "r9", c8_ok "r10"]

/-- C8 counterexample: in `MessageAnalyzer.process_message`
(src/src/message_analyzer.py line 244) `float(ts)` of an unparsable
string raises (there is no `try` around it); the batch handler catches
and SKIPS the record, so a batch of 10 records whose fifth has an
unparsable timestamp yields 9 outputs, not 10. -/
theorem C8_counterexample_record_skipped :
    c8_records.length = 10 ∧
    (c8_records.get? 4).map (·.ts) =
      some (TsField.str (sl "not-a-number") none) ∧
    (batch_process_messagesMA 0 c8_records []).1.length = 9 := by
  refine ⟨by decide, by decide, ?_⟩
  with_unfolding_all decide

/-- C8 amended: in `LocalMessageAnalyzer` (src/local_analyzer.py lines
229–236) a record whose `ts` is an unparsable string is never rejected:
the `except` defaults its timestamp to the processing time and the record
is processed, so a batch of 10 records whose fifth has an unparsable
timestamp yields 10 outputs and the fifth output carries the default
timestamp.  In `MessageAnalyzer` (src/src/message_analyzer.py) the same
record raises inside `process_message` and is skipped by the batch
handler. -/
theorem C8_amended_local_default_timestamp (rs : List InputRecord)
    (now : ℚ) (r : InputRecord) (s : List Char)
    (h10 : rs.length = 10) (h5 : rs.get? 4 = some r)
    (hts : r.ts = TsField.str s none) :
    (batch_process_messages now rs emptyState).1.length = 10 ∧
    ((batch_process_messages now rs emptyState).1.get? 4).map
      (·.timestamp) = some now := by
  refine ⟨by rw [batch_length]; exact h10, ?_⟩
  rw [batch_get_timestamp now rs emptyState 4 r h5, hts]
  rfl

theorem C8_amended_local_default_timestamp_witness :
    c8_records.length = 10 ∧ c8_records.get? 4 = some c8_bad ∧
    c8_bad.ts = TsField.str (sl "not-a-number") none ∧
    ((batch_process_messages 0 c8_records emptyState).1.length = 10 ∧
      ((batch_process_messages 0 c8_records emptyState).1.get? 4).map
        (·.timestamp) = some 0) :=
  ⟨by decide, by decide, by decide,
    C8_amended_local_default_timestamp c8_records 0 c8_bad
      (sl "not-a-number") (by decide) (by decide) (by decide)⟩

/-- C9: starting from a fresh engine, after any sequence of
`process_message` calls every message held in the store has a category
that is `some` name from the configured category set (hence non-empty)
and a priority score in `[0,1]` — enrichment completes before the append;
and each further call only appends its fully-enriched message, leaving
all previously stored messages unchanged. -/
theorem C9_store_enrichment_invariant (now : ℚ) (rs : List InputRecord) :
    (∀ m ∈ (batch_process_messages now rs emptyState).2.messages,
      goodMsg m) ∧
    ∀ r : InputRecord,
      (batch_process_messages now (rs ++ [r]) emptyState).2.messages =
        (batch_process_messages now rs emptyState).2.messages ++
          [(process_message r now
              (batch_process_messages now rs emptyState).2).1] := by
  constructor
  · intro m hm
    rw [batch_messages_eq] at hm
    simp only [emptyState, List.nil_append] at hm
    exact batch_outputs_good now rs emptyState m hm
  · intro r
    rw [batch_append now rs [r] emptyState]
    simp only
    rw [batch_messages_eq now [r]]
    rfl

/-- C10: when no messages have been processed, `get_analytics_data`
returns the empty dictionary (modelled as `none`) rather than a
zero-count summary, so no field — in particular the mean priority, whose
division by the message count only happens in the nonempty branch — is
ever produced from an empty store. -/
theorem C10_empty_store_analytics (st : AnalyzerState) (now : ℚ)
    (h : st.messages = []) : get_analytics_data st now = none := by
  unfold get_analytics_data
  rw [h]
  rfl

theorem C10_empty_store_analytics_witness :
    emptyState.messages = [] ∧ get_analytics_data emptyState 0 = none :=
  ⟨rfl, C10_empty_store_analytics emptyState 0 rfl⟩

end SlackAnalysis
